/-
  Verification development for an interactive HTTP/1.1 client
  (COP4635 project 2: transport socket, connection manager,
  HTTP message model, client orchestrator).

  The C++ sources are shallowly embedded: byte strings are `List Char`
  (every byte 0..255 is a valid `Char`), OS-level socket calls are
  abstracted as explicit event traces, and exceptions are `Except`
  values.  Each definition mirrors one function of the source tree.
-/
import Mathlib

/-! ## Byte/string utilities (n_utils.hpp, str_manip namespace) -/

/-- `::tolower` in the C locale: ASCII uppercase letters map to
lowercase, every other byte is unchanged.  Mirrors the per-character
step of `n_utils::str_manip::toLower`. -/
def tolowerC (c : Char) : Char :=
  if 'A' ≤ c ∧ c ≤ 'Z' then Char.ofNat (c.toNat + 32) else c

/-- `n_utils::str_manip::toLower`: lowercases every character. -/
def toLowerS (s : List Char) : List Char := s.map tolowerC

/-- The whitespace set `" \t\n\r\v\f"` used by `n_utils::str_manip::trim`. -/
def isTrimWS (c : Char) : Bool :=
  c == ' ' || c == '\t' || c == '\n' || c == '\r' ||
  c == Char.ofNat 11 || c == Char.ofNat 12

/-- `n_utils::str_manip::trim`: removes leading and trailing whitespace
(returning `""` when the string is all whitespace). -/
def trim (s : List Char) : List Char :=
  ((s.dropWhile isTrimWS).reverse.dropWhile isTrimWS).reverse

/-! ## Header map (http_message.hpp)

`HttpMessage` keeps its headers in a `std::unordered_map<std::string,
std::string>`: keys are unique, `headers[k] = v` overwrites the entry
when the key is present and inserts it otherwise.  We embed the map as
an association list with exactly that update rule. -/

def Headers : Type := List (List Char × List Char)

/-- Map lookup (`headers.find(key)` on the already-lowercased key). -/
def findHeader : Headers → List Char → Option (List Char)
  | [], _ => none
  | (k, v) :: hs, key => if k == key then some v else findHeader hs key

/-- `headers[lowerKey] = value` of `std::unordered_map`: replace the
value if the key exists, append a fresh entry otherwise. -/
def storeHeader : Headers → List Char → List Char → Headers
  | [], k, v => [(k, v)]
  | (k0, v0) :: hs, k, v =>
    if k0 == k then (k0, v) :: hs else (k0, v0) :: storeHeader hs k v

/-- `HttpMessage::getHeader`: lowercases the key, then looks it up. -/
def getHeader (hs : Headers) (key : List Char) : Option (List Char) :=
  findHeader hs (toLowerS key)

/-- `HttpMessage::setHeader`: lowercases the key, then stores the value. -/
def setHeader (hs : Headers) (key value : List Char) : Headers :=
  storeHeader hs (toLowerS key) value

/-- Keys of the header map are pairwise distinct (the
`std::unordered_map` representation invariant). -/
def keysNodup (hs : Headers) : Prop := (hs.map Prod.fst).Nodup

lemma findHeader_storeHeader (hs : Headers) (k v : List Char) :
    findHeader (storeHeader hs k v) k = some v := by
  induction hs with
  | nil => simp [storeHeader, findHeader]
  | cons h t ih =>
    obtain ⟨k0, v0⟩ := h
    by_cases hk : k0 = k
    · simp [storeHeader, findHeader, hk]
    · simp only [storeHeader, findHeader, beq_iff_eq, if_neg hk]
      exact ih

lemma mem_keys_storeHeader (hs : Headers) (k v : List Char) (a : List Char)
    (ha : a ∈ (storeHeader hs k v).map Prod.fst) :
    a ∈ hs.map Prod.fst ∨ a = k := by
  induction hs with
  | nil => simp [storeHeader] at ha; simp [ha]
  | cons h t ih =>
    obtain ⟨k0, v0⟩ := h
    by_cases hk : k0 = k
    · simp [storeHeader, hk] at ha
      rcases ha with ha | ha
      · simp [ha]
      · exact Or.inl (by simp [ha])
    · simp only [storeHeader, beq_iff_eq, if_neg hk, List.map_cons,
        List.mem_cons] at ha
      rcases ha with ha | ha
      · exact Or.inl (by simp [ha])
      · rcases ih ha with h1 | h1
        · exact Or.inl (by simp [h1])
        · exact Or.inr h1

lemma keysNodup_storeHeader (hs : Headers) (k v : List Char)
    (hnd : keysNodup hs) : keysNodup (storeHeader hs k v) := by
  induction hs with
  | nil => simp [keysNodup, storeHeader]
  | cons h t ih =>
    obtain ⟨k0, v0⟩ := h
    unfold keysNodup at hnd
    simp only [List.map_cons, List.nodup_cons] at hnd
    by_cases hk : k0 = k
    · simpa [keysNodup, storeHeader, hk] using hnd
    · have ht := ih hnd.2
      unfold keysNodup at ht ⊢
      simp only [storeHeader, beq_iff_eq, if_neg hk, List.map_cons,
        List.nodup_cons]
      refine ⟨fun hmem => ?_, ht⟩
      rcases mem_keys_storeHeader t k v k0 hmem with h1 | h1
      · exact hnd.1 h1
      · exact hk h1

/-- C5: header access is case-insensitive with last-write-wins and
unique (lowercased) keys. -/
theorem headers_case_insensitive_last_write_wins
    (hs : Headers) (k1 k2 v v1 v2 : List Char)
    (hcase : toLowerS k1 = toLowerS k2) :
    getHeader (setHeader hs k1 v) k2 = some v ∧
    getHeader (setHeader (setHeader hs k1 v1) k2 v2) k1 = some v2 ∧
    (keysNodup hs → keysNodup (setHeader hs k1 v)) := by
  refine ⟨?_, ?_, fun hnd => keysNodup_storeHeader hs (toLowerS k1) v hnd⟩
  · unfold getHeader setHeader
    rw [← hcase]
    exact findHeader_storeHeader hs (toLowerS k1) v
  · unfold getHeader setHeader
    rw [hcase]
    exact findHeader_storeHeader _ (toLowerS k2) v2

/-- Witness for C5 at concrete inputs: `Content-Type` set twice
(second time as `content-TYPE`) then read back as `content-type`. -/
theorem headers_case_insensitive_witness :
    getHeader (setHeader [] "Content-Type".toList "text/html".toList)
      "content-type".toList = some "text/html".toList ∧
    getHeader
      (setHeader (setHeader [] "Content-Type".toList "a".toList)
        "content-TYPE".toList "b".toList)
      "Content-Type".toList = some "b".toList := by
  have h := headers_case_insensitive_last_write_wins []
    "Content-Type".toList "content-type".toList "text/html".toList
    "a".toList "b".toList (by decide)
  have h2 := headers_case_insensitive_last_write_wins []
    "Content-Type".toList "content-TYPE".toList "text/html".toList
    "a".toList "b".toList (by decide)
  exact ⟨h.1, h2.2.1⟩

/-! ## Transport socket (socket.cpp)

OS interactions are abstracted: each underlying `::send`/`poll` call is
one event of an explicit trace, `::recv`/`::connect` results are plain
parameters, and thrown `std::runtime_error`/`std::system_error` values
become `Except` errors.  Linux errno values are used, as on the target
platform. -/

def EAGAIN : Nat := 11
def EWOULDBLOCK : Nat := 11
def EINPROGRESS : Nat := 115
def EINTR : Nat := 4

inductive RecvError
| recvFailed (errno : Nat)
deriving DecidableEq

/-- `Socket::recv`: one underlying `::recv` call returned `n` with the
given `errno`.  Negative results with an errno other than
EAGAIN/EWOULDBLOCK raise; every other result is returned unchanged. -/
def Socket.recv (n : Int) (errno : Nat) : Except RecvError Int :=
  if n < 0 then
    if errno ≠ EAGAIN ∧ errno ≠ EWOULDBLOCK then
      .error (.recvFailed errno)
    else .ok n
  else .ok n

/-- One underlying `::send` call: returned `n` bytes accepted (negative
on failure) with the given `errno`. -/
inductive WriteEv
| wret (n : Int) (errno : Nat)

inductive SendOut
| diverge
| sendError (errno : Nat)
| sent (total : Nat)
deriving DecidableEq

/-- The `while(totalSent < len)` loop of `Socket::send`: would-block
results are retried (after a 1 ms sleep, irrelevant here), any other
negative result raises, accepted byte counts accumulate. -/
def Socket.sendLoop (len : Nat) : Nat → List WriteEv → SendOut
  | totalSent, [] =>
    if totalSent < len then .diverge else .sent totalSent
  | totalSent, .wret n errno :: rest =>
    if totalSent < len then
      if n < 0 then
        if errno = EAGAIN ∨ errno = EWOULDBLOCK then
          Socket.sendLoop len totalSent rest
        else .sendError errno
      else Socket.sendLoop len (totalSent + n.toNat) rest
    else .sent totalSent

/-- `Socket::send` on a buffer of `len` bytes against a write trace. -/
def Socket.send (evs : List WriteEv) (len : Nat) : SendOut :=
  Socket.sendLoop len 0 evs

/-- Well-formedness of a write trace relative to the running total:
`::send` never reports more bytes accepted than the `len - totalSent`
bytes requested in that call. -/
def WriteWF (len : Nat) : Nat → List WriteEv → Prop
  | _, [] => True
  | totalSent, .wret n _ :: rest =>
      (0 ≤ n → n.toNat ≤ len - totalSent ∧ WriteWF len (totalSent + n.toNat) rest) ∧
      (n < 0 → WriteWF len totalSent rest)

lemma sendLoop_sent_eq_len (len : Nat) (evs : List WriteEv) :
    ∀ totalSent total, totalSent ≤ len → WriteWF len totalSent evs →
    Socket.sendLoop len totalSent evs = .sent total → total = len := by
  induction evs with
  | nil =>
    intro ts total hle _ h
    simp only [Socket.sendLoop] at h
    by_cases hlt : ts < len
    · simp [hlt] at h
    · simp [hlt] at h
      omega
  | cons e rest ih =>
    intro ts total hle hwf h
    obtain ⟨n, errno⟩ := e
    simp only [Socket.sendLoop] at h
    by_cases hlt : ts < len
    · simp only [if_pos hlt] at h
      by_cases hn : n < 0
      · simp only [if_pos hn] at h
        by_cases hwb : errno = EAGAIN ∨ errno = EWOULDBLOCK
        · exact ih ts total hle (hwf.2 hn) (by simpa [hwb] using h)
        · simp [hwb] at h
      · simp only [if_neg hn] at h
        have hn0 : 0 ≤ n := by omega
        have hrange := (hwf.1 hn0).1
        exact ih (ts + n.toNat) total (by omega) (hwf.1 hn0).2 h
    · simp only [if_neg hlt] at h
      cases h
      omega

/-- C3: `Socket::send` loops over partial writes until the whole
buffer is out.  On a well-formed write trace any successful return
reports exactly `len` bytes; a would-block result at any point is
retried transparently; any other failing write raises `SendError`. -/
theorem socket_send_spec (len : Nat) :
    (∀ evs, WriteWF len 0 evs →
      ∀ total, Socket.send evs len = .sent total →
        Socket.send evs len = .sent len) ∧
    (∀ ts rest errno, ts < len → (errno = EAGAIN ∨ errno = EWOULDBLOCK) →
      Socket.sendLoop len ts (.wret (-1) errno :: rest) =
        Socket.sendLoop len ts rest) ∧
    (∀ ts rest n errno, ts < len → n < 0 →
      ¬(errno = EAGAIN ∨ errno = EWOULDBLOCK) →
      Socket.sendLoop len ts (.wret n errno :: rest) = .sendError errno) := by
  refine ⟨?_, ?_, ?_⟩
  · intro evs hwf total h
    have := sendLoop_sent_eq_len len evs 0 total (Nat.zero_le len) hwf h
    rw [h, this]
  · intro ts rest errno hlt hwb
    simp only [Socket.sendLoop]
    simp [hlt, hwb]
  · intro ts rest n errno hlt hn hwb
    simp only [Socket.sendLoop]
    simp [hlt, hn, hwb]

/-- Witness for C3: a 5-byte buffer against a trace where the OS
accepts at most 3 bytes per call (2, then would-block, then 3):
`send` reports exactly 5 bytes sent. -/
theorem socket_send_spec_witness :
    Socket.send [.wret 2 0, .wret (-1) 11, .wret 3 0] 5 = .sent 5 :=
  (socket_send_spec 5).1 [.wret 2 0, .wret (-1) 11, .wret 3 0]
    (by simp [WriteWF]) 5 (by decide)

/-- C2 counterexample: an underlying would-block read (`-1` with errno
EAGAIN) makes `Socket::recv` return `-1`, not `0` as claimed. -/
theorem socket_recv_would_block_counterexample :
    Socket.recv (-1) 11 = .ok (-1) ∧
    (Except.ok (-1) : Except RecvError Int) ≠ .ok 0 := by
  constructor
  · rfl
  · simp

/-- C2 amended: a would-block read returns the negative underlying
result (`-1`) unchanged rather than raising; any other negative result
raises `RecvError`; a non-negative result (0 denoting peer closed) is
returned unchanged. -/
theorem socket_recv_spec (n : Int) (errno : Nat) :
    (n < 0 → (errno = EAGAIN ∨ errno = EWOULDBLOCK) →
      Socket.recv n errno = .ok n) ∧
    (n < 0 → ¬(errno = EAGAIN ∨ errno = EWOULDBLOCK) →
      Socket.recv n errno = .error (.recvFailed errno)) ∧
    (0 ≤ n → Socket.recv n errno = .ok n) := by
  refine ⟨?_, ?_, ?_⟩
  · intro hn hwb
    unfold Socket.recv
    have : ¬(errno ≠ EAGAIN ∧ errno ≠ EWOULDBLOCK) := by tauto
    simp [hn, this]
  · intro hn hwb
    unfold Socket.recv
    have : errno ≠ EAGAIN ∧ errno ≠ EWOULDBLOCK := by
      unfold EAGAIN EWOULDBLOCK at *
      tauto
    simp [hn, this]
  · intro hn
    unfold Socket.recv
    simp [show ¬(n < 0) by omega]

/-- Witness for C2 (amended) at concrete inputs: would-block passes
`-1` through, a hard error (errno 104) raises, and 0 (peer closed)
is returned as is. -/
theorem socket_recv_spec_witness :
    Socket.recv (-1) 11 = .ok (-1) ∧
    Socket.recv (-1) 104 = .error (.recvFailed 104) ∧
    Socket.recv 0 0 = .ok 0 :=
  ⟨(socket_recv_spec (-1) 11).1 (by decide) (by decide),
   (socket_recv_spec (-1) 104).2.1 (by decide) (by decide),
   (socket_recv_spec 0 0).2.2 (by decide)⟩

/-- One underlying `poll` call result (return value and errno). -/
inductive PollEv
| pret (r : Int) (errno : Nat)

/-- The `do { poll } while (poll_result < 0 && errno == EINTR)` loop of
`Socket::connect`: skips EINTR interruptions and yields the first other
result; `none` when the trace runs out (the loop keeps polling). -/
def pollRetry : List PollEv → Option (Int × Nat)
  | [] => none
  | .pret r errno :: rest =>
    if r < 0 ∧ errno = EINTR then pollRetry rest else some (r, errno)

inductive ConnectErr
| controlError
| connectFailed (errno : Nat)
| connectTimeout
| pollError (errno : Nat)
| getsockoptFailed (errno : Nat)
deriving DecidableEq

/-- Outcome of `Socket::connect`; the `Bool` records whether the socket
is in non-blocking mode when control leaves the function. -/
inductive ConnectOut
| diverge
| err (e : ConnectErr) (nonBlocking : Bool)
| ok (nonBlocking : Bool)
deriving DecidableEq

def ConnectOut.nb : ConnectOut → Bool
  | .diverge => true
  | .err _ b => b
  | .ok b => b

/-- Environment of one `Socket::connect` call: whether the `fcntl`
pair in `setNonBlocking` succeeds, the `::connect` return and errno,
the poll trace, the `getsockopt` return and the pending `SO_ERROR`. -/
structure ConnectEnv where
  fcntlOk : Bool
  connectRet : Int
  connectErrno : Nat
  pollEvs : List PollEv
  getsockoptRet : Int
  getsockoptErrno : Nat
  soError : Nat

/-- `Socket::connect`: switch to non-blocking, issue `::connect`; on
synchronous completion return at once; on EINPROGRESS poll for
writability (retrying EINTR), mapping timeout/poll-error/pending-error
to the corresponding raised errors. -/
def Socket.connect (env : ConnectEnv) : ConnectOut :=
  if !env.fcntlOk then .err .controlError false
  else if env.connectRet = 0 then .ok true
  else if env.connectErrno ≠ EINPROGRESS then
    .err (.connectFailed env.connectErrno) true
  else
    match pollRetry env.pollEvs with
    | none => .diverge
    | some (pr, perrno) =>
      if pr = 0 then .err .connectTimeout true
      else if pr < 0 then .err (.pollError perrno) true
      else if env.getsockoptRet < 0 then
        .err (.getsockoptFailed env.getsockoptErrno) true
      else if env.soError ≠ 0 then .err (.connectFailed env.soError) true
      else .ok true

/-- C6: `Socket::connect` always switches to non-blocking first (the
socket is non-blocking in every outcome once `fcntl` succeeded), a
synchronous `::connect` returns at once still non-blocking, zero poll
readiness events raise `ConnectTimeout`, a poll error raises
`PollError`, a non-zero pending socket error raises `ConnectFailed`,
and EINTR-interrupted polls are retried transparently. -/
theorem socket_connect_spec (env : ConnectEnv) :
    (env.fcntlOk = true → (Socket.connect env).nb = true) ∧
    (env.fcntlOk = true → env.connectRet = 0 →
      Socket.connect env = .ok true) ∧
    (env.fcntlOk = true → env.connectRet ≠ 0 →
      env.connectErrno = EINPROGRESS →
      ∀ e, pollRetry env.pollEvs = some (0, e) →
        Socket.connect env = .err .connectTimeout true) ∧
    (env.fcntlOk = true → env.connectRet ≠ 0 →
      env.connectErrno = EINPROGRESS →
      ∀ r e, pollRetry env.pollEvs = some (r, e) → r < 0 →
        Socket.connect env = .err (.pollError e) true) ∧
    (env.fcntlOk = true → env.connectRet ≠ 0 →
      env.connectErrno = EINPROGRESS →
      ∀ r e, pollRetry env.pollEvs = some (r, e) → 0 < r →
        0 ≤ env.getsockoptRet → env.soError ≠ 0 →
        Socket.connect env = .err (.connectFailed env.soError) true) ∧
    (∀ r e rest, r < 0 → e = EINTR →
      Socket.connect { env with pollEvs := .pret r e :: rest } =
        Socket.connect { env with pollEvs := rest }) := by
  refine ⟨?_, ?_, ?_, ?_, ?_, ?_⟩
  · intro hf
    unfold Socket.connect
    simp only [hf, Bool.not_true, Bool.false_eq_true, if_false]
    by_cases h0 : env.connectRet = 0
    · simp [h0, ConnectOut.nb]
    · simp only [if_neg h0]
      by_cases hep : env.connectErrno ≠ EINPROGRESS
      · simp [hep, ConnectOut.nb]
      · simp only [if_neg hep]
        match hp : pollRetry env.pollEvs with
        | none => simp [ConnectOut.nb]
        | some (pr, perrno) =>
          by_cases h1 : pr = 0
          · simp [h1, ConnectOut.nb]
          · by_cases h2 : pr < 0
            · simp [h1, h2, ConnectOut.nb]
            · by_cases h3 : env.getsockoptRet < 0
              · simp [h1, h2, h3, ConnectOut.nb]
              · by_cases h4 : env.soError ≠ 0
                · simp [h1, h2, h3, h4, ConnectOut.nb]
                · simp [h1, h2, h3, h4, ConnectOut.nb]
  · intro hf h0
    unfold Socket.connect
    simp [hf, h0]
  · intro hf h0 hep e hp
    unfold Socket.connect
    simp [hf, h0, hep, hp]
  · intro hf h0 hep r e hp hr
    unfold Socket.connect
    simp [hf, h0, hep, hp, show r ≠ 0 by omega, hr]
  · intro hf h0 hep r e hp hr hg hs
    unfold Socket.connect
    simp [hf, h0, hep, hp, show r ≠ 0 by omega, show ¬(r < 0) by omega,
      show ¬(env.getsockoptRet < 0) by omega, hs]
  · intro r e rest hr he
    unfold Socket.connect
    simp only [pollRetry, hr, he, and_self, if_true, true_and]

/-- Witness for C6: a connect that goes EINPROGRESS, has one poll
interrupted by EINTR, then times out (0 readiness events), raises
`ConnectTimeout` with the socket left non-blocking. -/
theorem socket_connect_spec_witness :
    Socket.connect
      { fcntlOk := true, connectRet := -1, connectErrno := 115,
        pollEvs := [.pret (-1) 4, .pret 0 0], getsockoptRet := 0,
        getsockoptErrno := 0, soError := 0 } =
      .err .connectTimeout true :=
  (socket_connect_spec _).2.2.1 rfl (by decide) rfl 0 (by rfl)

/-! ## Connection manager (connection_manager.cpp) -/

/-- Manager state: whether a `Socket` is held (`std::unique_ptr`
non-null) and the advisory `connected` flag. -/
structure CMState where
  sock : Bool
  connected : Bool
deriving DecidableEq

/-- Result of the one-byte `MSG_PEEK | MSG_DONTWAIT` read issued by
`ConnectionManager::isConnected`. -/
inductive PeekRes
| closed
| failed (errno : Nat)
| dataReady

/-- `ConnectionManager::isConnected`: no socket means false; a
peer-closed peek or a non-would-block peek error flips the flag to
false; otherwise the previously tracked flag is returned. -/
def ConnectionManager.isConnected (st : CMState) (peek : PeekRes) :
    Bool × CMState :=
  if !st.sock then (false, st)
  else
    let st1 :=
      match peek with
      | .closed => { st with connected := false }
      | .failed errno =>
        if errno ≠ EAGAIN ∧ errno ≠ EWOULDBLOCK then
          { st with connected := false }
        else st
      | .dataReady => st
    (st1.connected, st1)

/-- Environment of one `ConnectionManager::connect` call: whether the
`Socket` constructor succeeds (else its `runtime_error` propagates),
whether `std::stoi(port)` succeeds (else its exception propagates),
whether `inet_pton` accepts the address, and whether `Socket::connect`
succeeds (else its `runtime_error` is caught). -/
structure CMConnectEnv where
  createOk : Bool
  stoiOk : Bool
  ipValid : Bool
  connectOk : Bool

/-- Result of `ConnectionManager::connect`: `.error ()` is an escaped
exception, `.ok b` the boolean return; `st` the final manager state;
`didDisconnect` whether the held socket was torn down first. -/
structure CMConnRes where
  out : Except Unit Bool
  st : CMState
  didDisconnect : Bool

/-- `ConnectionManager::connect`. -/
def ConnectionManager.connect (st : CMState) (ip port : List Char)
    (env : CMConnectEnv) : CMConnRes :=
  if ip = [] ∨ port = [] then ⟨.ok false, st, false⟩
  else
    let didDisc := st.sock
    let st1 : CMState := if st.sock then ⟨false, false⟩ else st
    if !env.createOk then ⟨.error (), st1, didDisc⟩
    else
      let st2 : CMState := ⟨true, st1.connected⟩
      if !env.stoiOk then ⟨.error (), st2, didDisc⟩
      else if !env.ipValid then ⟨.ok false, st2, didDisc⟩
      else if env.connectOk then ⟨.ok true, ⟨true, true⟩, didDisc⟩
      else ⟨.ok false, st2, didDisc⟩

/-- `ConnectionManager::disconnect`: drop the socket, clear the flag. -/
def ConnectionManager.disconnect (_st : CMState) : CMState := ⟨false, false⟩

/-! ### `ConnectionManager::receive`

The socket is abstracted as a trace of per-iteration events: each
loop iteration either finds the socket unreadable (the 50 ms `POLLIN`
poll fails), or reads (`Socket::recv` returning `n` with payload `bs`,
or raising).  `std::string::find`, `getline`-based header-value lookup
and `std::stoul` are embedded below. -/

/-- `std::string::find(pat)`: index of the first occurrence. -/
def findSubIdx : List Char → List Char → Option Nat
  | l, pat =>
    if pat.isPrefixOf l then some 0
    else
      match l with
      | [] => none
      | _ :: t => (findSubIdx t pat).map (· + 1)

lemma length_dropWhile_le {α : Type} (p : α → Bool) (l : List α) :
    (l.dropWhile p).length ≤ l.length := by
  induction l with
  | nil => simp
  | cons a t ih =>
    by_cases h : p a
    · simp only [List.dropWhile_cons, h, if_true, List.length_cons]
      omega
    · simp [List.dropWhile_cons, h]

/-- Accumulator worker for `getLines`: `acc` holds the (reversed)
characters of the line being read. -/
def getLinesAux : List Char → List Char → List (List Char)
  | [], acc => [acc.reverse]
  | c :: cs, acc =>
    if c = '\n' then
      acc.reverse ::
        (match cs with
         | [] => []
         | _ :: _ => getLinesAux cs [])
    else getLinesAux cs (c :: acc)

/-- `std::getline(stream, line)` splitting on newline: the lines of a
string ('\r' is kept, a trailing fragment without a newline counts,
and a trailing newline does not open an extra empty line). -/
def getLines : List Char → List (List Char)
  | [] => []
  | c :: cs => getLinesAux (c :: cs) []

/-- `n_utils::str_manip::parseHeaderValue`: first line starting with
`key ++ ":"` (case-sensitively), its remainder trimmed. -/
def parseHeaderValue (headers key : List Char) : Option (List Char) :=
  let pfx := key ++ [':']
  ((getLines headers).find? (fun l => pfx.isPrefixOf l)).map
    (fun l => trim (l.drop pfx.length))

inductive StrToNumErr
| invalidArgument
| outOfRange
deriving DecidableEq

def isDigitC (c : Char) : Bool := '0' ≤ c && c ≤ '9'

/-- `isspace` in the C locale (skipped by `strtoul`/`strtol`). -/
def isSpaceC (c : Char) : Bool :=
  c == ' ' || (Char.ofNat 9 ≤ c && c ≤ Char.ofNat 13)

/-- `std::stoul` (base 10): skip whitespace, optional sign, decimal
digits; no digits raises `invalid_argument`, magnitude beyond
`ULONG_MAX` raises `out_of_range`, a minus sign wraps modulo 2^64. -/
def stoulModel (s : List Char) : Except StrToNumErr Nat :=
  let s1 := s.dropWhile isSpaceC
  let signed : Bool × List Char :=
    match s1 with
    | '+' :: r => (false, r)
    | '-' :: r => (true, r)
    | _ => (false, s1)
  let ds := signed.2.takeWhile isDigitC
  if ds = [] then .error .invalidArgument
  else
    let v := ds.foldl (fun a c => a * 10 + (c.toNat - 48)) 0
    if 2 ^ 64 - 1 < v then .error .outOfRange
    else .ok (if signed.1 then (2 ^ 64 - v % 2 ^ 64) % 2 ^ 64 else v)

/-- One iteration of a receive loop against the socket. -/
inductive RecvEv
| notReadable
| recvRet (n : Int) (bs : List Char)
| recvThrown
deriving DecidableEq

inductive RcvOut
| diverge
| raised
| nodata
| msg (s : List Char)
deriving DecidableEq

def CRLFCRLF : List Char := "\r\n\r\n".toList

inductive HeadPhase
| hdiverge
| hraised
| hfail
| hok (data : List Char) (rest : List RecvEv)
deriving DecidableEq

/-- The header loop of `ConnectionManager::receive`: read until the
accumulated data contains `"\r\n\r\n"`; an unreadable socket or a
read returning `<= 0` fails the call. -/
def recvHeadersLoop : List RecvEv → List Char → HeadPhase
  | [], data =>
    if (findSubIdx data CRLFCRLF).isSome then .hok data [] else .hdiverge
  | .notReadable :: rest, data =>
    if (findSubIdx data CRLFCRLF).isSome then .hok data (.notReadable :: rest)
    else .hfail
  | .recvThrown :: rest, data =>
    if (findSubIdx data CRLFCRLF).isSome then .hok data (.recvThrown :: rest)
    else .hraised
  | .recvRet n bs :: rest, data =>
    if (findSubIdx data CRLFCRLF).isSome then .hok data (.recvRet n bs :: rest)
    else if n ≤ 0 then .hfail
    else recvHeadersLoop rest (data ++ bs)

inductive BodyPhase
| bdiverge
| braised
| bfail
| bdone (body : List Char)
deriving DecidableEq

/-- The body loop of `ConnectionManager::receive`: while a positive
`Content-Length` exceeds the body bytes, an unreadable socket fails the
call, a read returning `<= 0` breaks out returning the partial body,
and read bytes accumulate. -/
def recvBodyLoop (contentLength : Nat) : List RecvEv → List Char → BodyPhase
  | [], body =>
    if 0 < contentLength ∧ body.length < contentLength then .bdiverge
    else .bdone body
  | .notReadable :: _, body =>
    if 0 < contentLength ∧ body.length < contentLength then .bfail
    else .bdone body
  | .recvThrown :: _, body =>
    if 0 < contentLength ∧ body.length < contentLength then .braised
    else .bdone body
  | .recvRet n bs :: rest, body =>
    if 0 < contentLength ∧ body.length < contentLength then
      if n ≤ 0 then .bdone body
      else recvBodyLoop contentLength rest (body ++ bs)
    else .bdone body

/-- The `Content-Length` extraction in `ConnectionManager::receive`:
the header value (under the lowercased key, compared case-sensitively
against the header block) fed to `stoul`; `invalid_argument` is caught
(length 0), `out_of_range` propagates. -/
def contentLengthResult (headersStr : List Char) : Except Unit Nat :=
  match parseHeaderValue headersStr (toLowerS "Content-Length".toList) with
  | none => .ok 0
  | some v =>
    match stoulModel v with
    | .ok n => .ok n
    | .error .invalidArgument => .ok 0
    | .error .outOfRange => .error ()

/-- `ConnectionManager::receive`. -/
def ConnectionManager.receive (hasSock : Bool) (evs : List RecvEv) : RcvOut :=
  if !hasSock then .nodata
  else
    match recvHeadersLoop evs [] with
    | .hdiverge => .diverge
    | .hraised => .raised
    | .hfail => .nodata
    | .hok data rest =>
      match findSubIdx data CRLFCRLF with
      | none => .nodata
      | some headerEnd =>
        let headersStr := data.take headerEnd
        let body := data.drop (headerEnd + 4)
        match contentLengthResult headersStr with
        | .error _ => .raised
        | .ok contentLength =>
          match recvBodyLoop contentLength rest body with
          | .bdiverge => .diverge
          | .braised => .raised
          | .bfail => .nodata
          | .bdone body2 => .msg (headersStr ++ CRLFCRLF ++ body2)

/-- C8: `ConnectionManager::isConnected` returns false without a
socket; a peer-closed peek or a non-would-block peek error returns
false and marks the state disconnected; data or would-block returns
the previously tracked flag unchanged. -/
theorem cm_isConnected_spec (st : CMState) (errno : Nat) :
    (st.sock = false → ∀ peek,
      ConnectionManager.isConnected st peek = (false, st)) ∧
    (st.sock = true →
      ConnectionManager.isConnected st .closed =
        (false, { st with connected := false })) ∧
    (st.sock = true → ¬(errno = EAGAIN ∨ errno = EWOULDBLOCK) →
      ConnectionManager.isConnected st (.failed errno) =
        (false, { st with connected := false })) ∧
    (st.sock = true → (errno = EAGAIN ∨ errno = EWOULDBLOCK) →
      ConnectionManager.isConnected st (.failed errno) =
        (st.connected, st)) ∧
    (st.sock = true →
      ConnectionManager.isConnected st .dataReady = (st.connected, st)) := by
  refine ⟨?_, ?_, ?_, ?_, ?_⟩
  · intro hs peek
    unfold ConnectionManager.isConnected
    simp [hs]
  · intro hs
    unfold ConnectionManager.isConnected
    simp [hs]
  · intro hs hwb
    unfold ConnectionManager.isConnected
    have : errno ≠ EAGAIN ∧ errno ≠ EWOULDBLOCK := by tauto
    simp [hs, this]
  · intro hs hwb
    unfold ConnectionManager.isConnected
    have : ¬(errno ≠ EAGAIN ∧ errno ≠ EWOULDBLOCK) := by tauto
    simp [hs, this]
  · intro hs
    unfold ConnectionManager.isConnected
    simp [hs]

/-- Witness for C8: a connected manager whose peek sees a reset
(errno 104) reports false and flips its flag; one whose peek
would-block keeps reporting true. -/
theorem cm_isConnected_spec_witness :
    ConnectionManager.isConnected ⟨true, true⟩ (.failed 104) =
      (false, ⟨true, false⟩) ∧
    ConnectionManager.isConnected ⟨true, true⟩ (.failed 11) =
      (true, ⟨true, true⟩) :=
  ⟨(cm_isConnected_spec ⟨true, true⟩ 104).2.2.1 rfl (by decide),
   (cm_isConnected_spec ⟨true, true⟩ 11).2.2.2.1 rfl (by decide)⟩

/-- C7: `ConnectionManager::connect` rejects an empty host or port at
once, tears a held socket down before a fresh attempt, returns false
without throwing on an unparsable address, returns false and leaves
the manager disconnected on a connect failure, and marks
`connected = true` on success.  The hypothesis is the manager
invariant that a socketless state has a cleared flag. -/
theorem cm_connect_spec (st : CMState) (ip port : List Char)
    (env : CMConnectEnv) (hinv : st.sock = false → st.connected = false) :
    (ip = [] ∨ port = [] →
      ConnectionManager.connect st ip port env = ⟨.ok false, st, false⟩) ∧
    (ip ≠ [] → port ≠ [] →
      (ConnectionManager.connect st ip port env).didDisconnect = st.sock) ∧
    (ip ≠ [] → port ≠ [] → env.createOk = true → env.stoiOk = true →
      env.ipValid = false →
      (ConnectionManager.connect st ip port env).out = .ok false ∧
      (ConnectionManager.connect st ip port env).st.connected = false) ∧
    (ip ≠ [] → port ≠ [] → env.createOk = true → env.stoiOk = true →
      env.ipValid = true → env.connectOk = false →
      (ConnectionManager.connect st ip port env).out = .ok false ∧
      (ConnectionManager.connect st ip port env).st.connected = false) ∧
    (ip ≠ [] → port ≠ [] → env.createOk = true → env.stoiOk = true →
      env.ipValid = true → env.connectOk = true →
      ConnectionManager.connect st ip port env =
        ⟨.ok true, ⟨true, true⟩, st.sock⟩) := by
  have hst1 : (if st.sock then (⟨false, false⟩ : CMState) else st).connected
      = false := by
    by_cases hs : st.sock
    · simp [hs]
    · simp [hs, hinv (by simpa using hs)]
  refine ⟨?_, ?_, ?_, ?_, ?_⟩
  · intro hemp
    unfold ConnectionManager.connect
    simp [hemp]
  · intro hip hport
    unfold ConnectionManager.connect
    simp only [hip, hport, or_self, false_or, if_neg]
    by_cases hc : env.createOk
    · simp only [hc, Bool.not_true, Bool.false_eq_true, if_false]
      by_cases hstoi : env.stoiOk
      · by_cases hipv : env.ipValid
        · by_cases hco : env.connectOk <;>
            simp [hstoi, hipv, hco]
        · simp [hstoi, hipv]
      · simp [hstoi]
    · simp [hc]
  · intro hip hport hc hstoi hipv
    unfold ConnectionManager.connect
    simp [hip, hport, hc, hstoi, hipv, hst1]
  · intro hip hport hc hstoi hipv hco
    unfold ConnectionManager.connect
    simp [hip, hport, hc, hstoi, hipv, hco, hst1]
  · intro hip hport hc hstoi hipv hco
    unfold ConnectionManager.connect
    simp [hip, hport, hc, hstoi, hipv, hco]

/-- Witness for C7: a previously connected manager reconnecting to
`1.2.3.4:80`: teardown happens, a failed `Socket::connect` yields
false with the flag cleared, a successful one yields true. -/
theorem cm_connect_spec_witness :
    (ConnectionManager.connect ⟨true, true⟩ "1.2.3.4".toList "80".toList
        ⟨true, true, true, false⟩).out = .ok false ∧
    (ConnectionManager.connect ⟨true, true⟩ "1.2.3.4".toList "80".toList
        ⟨true, true, true, false⟩).st.connected = false ∧
    ConnectionManager.connect ⟨true, true⟩ "1.2.3.4".toList "80".toList
        ⟨true, true, true, true⟩ = ⟨.ok true, ⟨true, true⟩, true⟩ := by
  have h1 := (cm_connect_spec ⟨true, true⟩ "1.2.3.4".toList "80".toList
    ⟨true, true, true, false⟩ (by intro h; exact absurd h (by decide))).2.2.2.1
    (by decide) (by decide) rfl rfl rfl rfl
  have h2 := (cm_connect_spec ⟨true, true⟩ "1.2.3.4".toList "80".toList
    ⟨true, true, true, true⟩ (by intro h; exact absurd h (by decide))).2.2.2.2
    (by decide) (by decide) rfl rfl rfl rfl
  exact ⟨h1.1, h1.2, by rw [h2]⟩

/-- A receive trace: one read delivers the 40-byte fragment
`"HTTP/1.1 200 OK\r\ncontent-length: 5\r\n\r\nab"` (headers declaring
`Content-Length: 5`, body fragment `"ab"`), then the readability poll
reports the socket unreadable. -/
def C1trace : List RecvEv :=
  [.recvRet 40 ("HTTP/1.1 200 OK\r\ncontent-length: 5\r\n\r\nab".toList),
   .notReadable]

/-- C1 counterexample: the headers of `C1trace` declare Content-Length
5 while only 2 body bytes were accumulated; when the socket becomes
unreadable, `ConnectionManager::receive` returns the empty failure
result (`std::nullopt`), not the accumulated bytes. -/
theorem receive_unreadable_counterexample :
    contentLengthResult
      ("HTTP/1.1 200 OK\r\ncontent-length: 5".toList) = .ok 5 ∧
    ConnectionManager.receive true C1trace = .nodata ∧
    ConnectionManager.receive true C1trace ≠
      .msg ("HTTP/1.1 200 OK\r\ncontent-length: 5\r\n\r\nab".toList) := by
  refine ⟨by rfl, by rfl, ?_⟩
  intro h
  rw [show ConnectionManager.receive true C1trace = .nodata from rfl] at h
  exact absurd h (by simp)

/-- C1 amended: once the header phase has completed with a declared
Content-Length still exceeding the accumulated body fragment, a body
phase read returning `<= 0` (peer closed or would-block) makes
`receive` return the accumulated headers + delimiter + partial body as
a non-empty result, whereas a failing readability poll makes it
return the empty failure result. -/
theorem receive_partial_body_spec (evs : List RecvEv) (data : List Char)
    (rest : List RecvEv) (headerEnd cl : Nat)
    (hhead : recvHeadersLoop evs [] = .hok data rest)
    (hidx : findSubIdx data CRLFCRLF = some headerEnd)
    (hcl : contentLengthResult (data.take headerEnd) = .ok cl)
    (hlt : (data.drop (headerEnd + 4)).length < cl) :
    (∀ n bs rest2, rest = .recvRet n bs :: rest2 → n ≤ 0 →
      ConnectionManager.receive true evs =
        .msg (data.take headerEnd ++ CRLFCRLF ++ data.drop (headerEnd + 4)) ∧
      data.take headerEnd ++ CRLFCRLF ++ data.drop (headerEnd + 4) ≠ []) ∧
    (∀ rest2, rest = .notReadable :: rest2 →
      ConnectionManager.receive true evs = .nodata) := by
  have hcl0 : 0 < cl := by omega
  have hne : CRLFCRLF ≠ [] := by decide
  constructor
  · intro n bs rest2 hrest hn
    subst hrest
    refine ⟨?_, ?_⟩
    · unfold ConnectionManager.receive
      rw [hhead]
      simp only []
      rw [hidx]
      simp only []
      rw [hcl]
      simp only [recvBodyLoop, hcl0, hlt, and_self, if_true, if_pos hn]
      simp
    · intro h
      rcases List.append_eq_nil.mp ((List.append_assoc _ _ _) ▸ h) with ⟨-, h2⟩
      rcases List.append_eq_nil.mp h2 with ⟨h3, -⟩
      exact hne h3
  · intro rest2 hrest
    subst hrest
    unfold ConnectionManager.receive
    rw [hhead]
    simp only []
    rw [hidx]
    simp only []
    rw [hcl]
    simp only [recvBodyLoop, hcl0, hlt, and_self, if_true]
    simp

/-- Witness for C1 (amended): the same 40-byte fragment followed by a
peer-closed read (`recv` returning 0) yields the accumulated partial
message. -/
theorem receive_partial_body_spec_witness :
    ConnectionManager.receive true
      [.recvRet 40 ("HTTP/1.1 200 OK\r\ncontent-length: 5\r\n\r\nab".toList),
       .recvRet 0 []] =
      .msg ("HTTP/1.1 200 OK\r\ncontent-length: 5\r\n\r\nab".toList) := by
  have h := (receive_partial_body_spec
    [.recvRet 40 ("HTTP/1.1 200 OK\r\ncontent-length: 5\r\n\r\nab".toList),
     .recvRet 0 []]
    ("HTTP/1.1 200 OK\r\ncontent-length: 5\r\n\r\nab".toList)
    [.recvRet 0 []] 34 5 (by rfl) (by rfl) (by rfl) (by decide)).1
    0 [] [] rfl (by decide)
  exact h.1.trans (by rfl)

/-! ## Percent-encoding (http_encoding.hpp, namespace http::encoding) -/

def isHexDigitC (c : Char) : Bool :=
  isDigitC c || ('a' ≤ c && c ≤ 'f') || ('A' ≤ c && c ≤ 'F')

def hexDigitVal (c : Char) : Nat :=
  if isDigitC c then c.toNat - 48
  else if 'a' ≤ c && c ≤ 'f' then c.toNat - 87
  else c.toNat - 55

/-- `std::stoi(s, nullptr, 16)` (`strtol`, base 16): skip whitespace,
optional sign, optional `0x`/`0X` consumed only when a hex digit
follows, then hex digits; no digits raises `invalid_argument`, a value
outside `int` range raises `out_of_range`.  (`decode` only ever calls
this on two-character strings, where `long` overflow cannot occur.) -/
def stoi16Model (s : List Char) : Except StrToNumErr Int :=
  let s1 := s.dropWhile isSpaceC
  let signed : Bool × List Char :=
    match s1 with
    | '+' :: r => (false, r)
    | '-' :: r => (true, r)
    | _ => (false, s1)
  let s3 :=
    match signed.2 with
    | '0' :: x :: d :: r =>
      if (x = 'x' ∨ x = 'X') ∧ isHexDigitC d then d :: r else signed.2
    | _ => signed.2
  let ds := s3.takeWhile isHexDigitC
  if ds = [] then .error .invalidArgument
  else
    let v : Nat := ds.foldl (fun a c => a * 16 + hexDigitVal c) 0
    let sv : Int := if signed.1 then -(v : Int) else (v : Int)
    if sv < -(2 ^ 31 : Int) ∨ (2 ^ 31 : Int) - 1 < sv then .error .outOfRange
    else .ok sv

/-- The 33-entry `http::encoding::ENCODING_MAP`. -/
def ENCODING_MAP : List (Char × List Char) :=
  [(' ', "%20".toList), ('!', "%21".toList), (Char.ofNat 34, "%22".toList),
   ('#', "%23".toList), ('$', "%24".toList), ('%', "%25".toList),
   ('&', "%26".toList), (Char.ofNat 39, "%27".toList), ('(', "%28".toList),
   (')', "%29".toList), ('*', "%2A".toList), ('+', "%2B".toList),
   (',', "%2C".toList), ('-', "%2D".toList), ('.', "%2E".toList),
   ('/', "%2F".toList), (':', "%3A".toList), (';', "%3B".toList),
   ('<', "%3C".toList), ('=', "%3D".toList), ('>', "%3E".toList),
   ('?', "%3F".toList), ('@', "%40".toList), ('[', "%5B".toList),
   (Char.ofNat 92, "%5C".toList), (']', "%5D".toList), ('^', "%5E".toList),
   ('_', "%5F".toList), (Char.ofNat 96, "%60".toList),
   (Char.ofNat 123, "%7B".toList), ('|', "%7C".toList),
   (Char.ofNat 125, "%7D".toList), ('~', "%7E".toList)]

/-- `ENCODING_MAP.find(c)` of the `std::unordered_map`. -/
def lookupEnc : List (Char × List Char) → Char → Option (List Char)
  | [], _ => none
  | (k, e) :: t, c => if k == c then some e else lookupEnc t c

/-- `http::encoding::encode`: characters in the table are replaced by
their `%XX` triple, all others pass through. -/
def encode : List Char → List Char
  | [] => []
  | c :: rest =>
    match lookupEnc ENCODING_MAP c with
    | some e => e ++ encode rest
    | none => c :: encode rest

/-- `http::encoding::decode`: a `%` with at least two characters after
it has those two fed to `stoi(.., 16)`; on success the byte
`static_cast<char>(value)` is emitted and all three characters are
consumed, on failure the `%` is kept and scanning resumes after it;
everything else passes through. -/
def decode : List Char → List Char
  | [] => []
  | c :: h1 :: h2 :: rest =>
    if c = '%' then
      match stoi16Model [h1, h2] with
      | .ok v => Char.ofNat ((v % 256).toNat) :: decode rest
      | .error _ => c :: decode (h1 :: h2 :: rest)
    else c :: decode (h1 :: h2 :: rest)
  | c :: rest => c :: decode rest

/-- Each table entry is a `%XX` triple that `decode` maps back to the
original character. -/
def tripleOk (p : Char × List Char) : Bool :=
  match p.2 with
  | [pc, h1, h2] =>
    pc == '%' &&
      (match stoi16Model [h1, h2] with
       | .ok v => Char.ofNat ((v % 256).toNat) == p.1
       | .error _ => false)
  | _ => false

lemma encoding_map_triples : ENCODING_MAP.all tripleOk = true := by decide

lemma lookupEnc_mem (t : List (Char × List Char)) (c : Char) (e : List Char)
    (h : lookupEnc t c = some e) : (c, e) ∈ t := by
  induction t with
  | nil => simp [lookupEnc] at h
  | cons p t ih =>
    obtain ⟨k, v⟩ := p
    by_cases hk : k = c
    · subst hk
      simp [lookupEnc] at h
      simp [h]
    · simp only [lookupEnc, beq_iff_eq, if_neg hk] at h
      exact List.mem_cons_of_mem _ (ih h)

lemma decode_cons_of_ne (c : Char) (l : List Char) (hc : ¬c = '%') :
    decode (c :: l) = c :: decode l := by
  match l with
  | [] => rfl
  | [a] => rfl
  | a :: b :: t => simp [decode, hc]

/-- C10: percent-decoding inverts percent-encoding on every byte
string. -/
theorem encode_decode_roundtrip (s : List Char)
    (hbytes : ∀ c ∈ s, c.toNat < 256) : decode (encode s) = s := by
  induction s with
  | nil => rfl
  | cons c rest ih =>
    have ihr := ih (fun x hx => hbytes x (List.mem_cons_of_mem _ hx))
    cases htab : lookupEnc ENCODING_MAP c with
    | none =>
      have hc : ¬c = '%' := by
        intro h
        subst h
        exact absurd htab (by decide)
      simp only [encode, htab]
      rw [decode_cons_of_ne c _ hc, ihr]
    | some es =>
      have hmem : (c, es) ∈ ENCODING_MAP := lookupEnc_mem _ _ _ htab
      have hok : tripleOk (c, es) = true :=
        List.all_eq_true.mp encoding_map_triples _ hmem
      match es, hok with
      | [pc, h1, h2], hok =>
        simp only [tripleOk, Bool.and_eq_true, beq_iff_eq] at hok
        obtain ⟨hpc, hrest⟩ := hok
        cases hsto : stoi16Model [h1, h2] with
        | error e => rw [hsto] at hrest; simp at hrest
        | ok v =>
          rw [hsto] at hrest
          simp only [beq_iff_eq] at hrest
          simp only [encode, htab, List.cons_append, List.nil_append]
          rw [hpc]
          show decode ('%' :: h1 :: h2 :: encode rest) = c :: rest
          simp only [decode, if_pos rfl, hsto, hrest, ihr]
          simp

/-- Witness for C10: the byte-bound hypothesis and the round trip at
the concrete string `"a b%c{"`. -/
theorem encode_decode_roundtrip_witness :
    decode (encode ("a b%c".toList ++ [Char.ofNat 123])) =
      "a b%c".toList ++ [Char.ofNat 123] :=
  encode_decode_roundtrip ("a b%c".toList ++ [Char.ofNat 123]) (by decide)

/-! ## HTTP response model (http_response.cpp, http_status.hpp) -/

def CRLF : List Char := "\r\n".toList

/-- `std::stoi(s)` (base 10): skip whitespace, optional sign, decimal
digits; no digits raises `invalid_argument`, a value outside `int`
range raises `out_of_range`. -/
def stoiModel (s : List Char) : Except StrToNumErr Int :=
  let s1 := s.dropWhile isSpaceC
  let signed : Bool × List Char :=
    match s1 with
    | '+' :: r => (false, r)
    | '-' :: r => (true, r)
    | _ => (false, s1)
  let ds := signed.2.takeWhile isDigitC
  if ds = [] then .error .invalidArgument
  else
    let v : Nat := ds.foldl (fun a c => a * 10 + (c.toNat - 48)) 0
    let sv : Int := if signed.1 then -(v : Int) else (v : Int)
    if sv < -(2 ^ 31 : Int) ∨ (2 ^ 31 : Int) - 1 < sv then .error .outOfRange
    else .ok sv

/-- The status codes of `http::status::Code` / `REASON_MAP`
(`INVALID = 0` included, as in the reverse map). -/
def validStatusCodes : List Nat :=
  [100, 101, 102, 103,
   200, 201, 202, 203, 204, 205, 206, 207, 208, 226,
   300, 301, 302, 303, 304, 305, 306, 307, 308,
   400, 401, 402, 403, 404, 405, 406, 407, 408, 409, 410, 411, 412, 413,
   414, 415, 416, 417, 418, 421, 422, 423, 424, 425, 426, 428, 429, 431, 451,
   500, 501, 502, 503, 504, 505,
   0]

/-- `http::status::fromString`: `stoi` the string (exceptions caught,
yielding `INVALID = 0`), then look the value up in the reverse map;
unknown values yield `INVALID = 0`. -/
def fromString (s : List Char) : Nat :=
  match stoiModel s with
  | .error _ => 0
  | .ok v => if 0 ≤ v ∧ v.toNat ∈ validStatusCodes then v.toNat else 0

/-- `HttpResponse` (the fields of `HttpMessage` plus status and
keep-alive; the status code is its numeric value). -/
structure HttpResponse where
  version : List Char
  headers : Headers
  body : List Char
  status : Nat
  keepAlive : Bool

/-- The `HttpResponse()` constructor: `HTTP/1.1`, status `OK`,
`keepAlive(true)`, no headers, empty body. -/
def HttpResponse.init : HttpResponse :=
  ⟨"HTTP/1.1".toList, [], [], 200, true⟩

/-- `HttpResponse::parseStartLine`: split at the first two spaces,
convert the middle field (`statusCodeStr`); `INVALID` fails, otherwise
version and status are stored. -/
def parseStartLine (r : HttpResponse) (line : List Char) :
    Option HttpResponse :=
  match findSubIdx line [' '] with
  | none => none
  | some versionEnd =>
    match (findSubIdx (line.drop (versionEnd + 1)) [' ']).map
        (· + (versionEnd + 1)) with
    | none => none
    | some statusCodeEnd =>
      if fromString ((line.drop (versionEnd + 1)).take
          (statusCodeEnd - versionEnd - 1)) = 0 then none
      else
        some { r with
          version := line.take versionEnd,
          status := fromString ((line.drop (versionEnd + 1)).take
            (statusCodeEnd - versionEnd - 1)) }

/-- One header line of `HttpResponse::parseHeaders`: empty lines are
skipped, a line without a colon is ignored, otherwise the key is what
precedes the first colon and the value the remainder stripped of
leading spaces. -/
def processHeaderLine (hs : Headers) (header : List Char) : Headers :=
  if header = [] then hs
  else
    match findSubIdx header [':'] with
    | none => hs
    | some sep =>
      let value := (header.drop (sep + 1)).dropWhile (· == ' ')
      setHeader hs (header.take sep) value

/-- The scanning loop of `HttpResponse::parseHeaders`: lines separated
by `"\r\n"` (the final line may be unterminated), each fed to
`processHeaderLine`.  `acc` holds the reversed characters of the line
being scanned; feeding the trailing fragment at the end matches the
loop, because an empty trailing fragment is skipped anyway. -/
def parseHeadersAux : Headers → List Char → List Char → Headers
  | hs, acc, '\r' :: '\n' :: t =>
    parseHeadersAux (processHeaderLine hs acc.reverse) [] t
  | hs, acc, c :: t => parseHeadersAux hs (c :: acc) t
  | hs, acc, [] => processHeaderLine hs acc.reverse

/-- `HttpResponse::parseHeaders`. -/
def parseHeaders (hs : Headers) (block : List Char) : Headers :=
  parseHeadersAux hs [] block

/-- `HttpResponse::determineKeepAlive`: only a present `Connection`
header overwrites the flag, with the trimmed, lowercased comparison
against `"keep-alive"`. -/
def determineKeepAlive (r : HttpResponse) : HttpResponse :=
  match getHeader r.headers "Connection".toList with
  | none => r
  | some v =>
    { r with keepAlive := toLowerS (trim v) == "keep-alive".toList }

/-- `HttpResponse::parseBody`: with bytes past the delimiter and a
`Content-Length` header, `stoul` failures (both kinds are caught) and
a shortfall of available bytes fail; otherwise the body is the
declared number of bytes.  Without remaining bytes the body is set
empty. -/
def parseBody (r : HttpResponse) (raw : List Char) (bodyStart : Nat) :
    Option HttpResponse :=
  if bodyStart < raw.length then
    match getHeader r.headers "Content-Length".toList with
    | none => some r
    | some clv =>
      match stoulModel clv with
      | .error _ => none
      | .ok contentLength =>
        if contentLength ≤ raw.length - bodyStart then
          some { r with body := (raw.drop bodyStart).take contentLength }
        else none
  else some { r with body := [] }

/-- `HttpResponse::parse` (`none` is the `false` return): start line,
headers block between `startLineEnd + 2` and the `"\r\n\r\n"` found
from there, keep-alive derivation, then the body. -/
def HttpResponse.parse (raw : List Char) : Option HttpResponse :=
  match findSubIdx raw CRLF with
  | none => none
  | some startLineEnd =>
    match parseStartLine HttpResponse.init (raw.take startLineEnd) with
    | none => none
    | some r1 =>
      match (findSubIdx (raw.drop (startLineEnd + 2)) CRLFCRLF).map
          (· + (startLineEnd + 2)) with
      | none => none
      | some headersEnd =>
        parseBody
          (determineKeepAlive { r1 with
            headers := parseHeaders r1.headers
              ((raw.drop (startLineEnd + 2)).take
                (headersEnd - (startLineEnd + 2))) })
          raw (headersEnd + 4)

lemma parseStartLine_fields (r r1 : HttpResponse) (line : List Char)
    (h : parseStartLine r line = some r1) :
    r1.headers = r.headers ∧ r1.keepAlive = r.keepAlive := by
  unfold parseStartLine at h
  split at h
  · exact absurd h (by simp)
  · split at h
    · exact absurd h (by simp)
    · split at h
      · exact absurd h (by simp)
      · cases h
        exact ⟨rfl, rfl⟩

lemma parseBody_fields (r r2 : HttpResponse) (raw : List Char) (b : Nat)
    (h : parseBody r raw b = some r2) :
    r2.headers = r.headers ∧ r2.keepAlive = r.keepAlive := by
  unfold parseBody at h
  split at h
  · split at h
    · cases h
      exact ⟨rfl, rfl⟩
    · split at h
      · exact absurd h (by simp)
      · split at h
        · cases h
          exact ⟨rfl, rfl⟩
        · exact absurd h (by simp)
  · cases h
    exact ⟨rfl, rfl⟩

/-- C4 counterexample: `"HTTP/1.1 200 OK\r\nA: b\r\n\r\n"` parses
successfully, has no `Connection` header, and yields
`isKeepAlive() = true`, not false. -/
theorem response_no_connection_counterexample :
    (HttpResponse.parse ("HTTP/1.1 200 OK\r\nA: b\r\n\r\n".toList)).map
        (fun r => getHeader r.headers "Connection".toList) = some none ∧
    (HttpResponse.parse ("HTTP/1.1 200 OK\r\nA: b\r\n\r\n".toList)).map
        HttpResponse.keepAlive = some true :=
  ⟨rfl, rfl⟩

/-- C4 amended: for every parsed response, a missing `Connection`
header leaves the constructor default `isKeepAlive() = true` (HTTP/1.1
default keep-alive is effectively assumed), while a present header
sets the flag to whether its trimmed value equals `"keep-alive"`
case-insensitively (so `close` yields false). -/
theorem response_keepalive_spec (raw : List Char) (r : HttpResponse)
    (hp : HttpResponse.parse raw = some r) :
    (getHeader r.headers "Connection".toList = none → r.keepAlive = true) ∧
    (∀ v, getHeader r.headers "Connection".toList = some v →
      r.keepAlive = (toLowerS (trim v) == "keep-alive".toList)) := by
  unfold HttpResponse.parse at hp
  split at hp
  · exact absurd hp (by simp)
  split at hp
  · exact absurd hp (by simp)
  split at hp
  · exact absurd hp (by simp)
  rename_i x1 startLineEnd hsle x2 r1 hps x3 headersEnd hhe
  obtain ⟨hh1, hk1⟩ := parseStartLine_fields _ _ _ hps
  set r2 : HttpResponse := { r1 with
    headers := parseHeaders r1.headers
      ((raw.drop (startLineEnd + 2)).take
        (headersEnd - (startLineEnd + 2))) } with hr2
  obtain ⟨hh, hk⟩ := parseBody_fields _ _ _ _ hp
  cases hconn : getHeader r2.headers "Connection".toList with
  | none =>
    have hdet : determineKeepAlive r2 = r2 := by
      unfold determineKeepAlive
      rw [hconn]
    rw [hdet] at hh hk
    constructor
    · intro _
      rw [hk, hr2]
      simp only []
      rw [hk1]
      rfl
    · intro v hv
      rw [hh] at hv
      rw [hconn] at hv
      exact absurd hv (by simp)
  | some v0 =>
    have hdet : determineKeepAlive r2 =
        { r2 with keepAlive := toLowerS (trim v0) == "keep-alive".toList } := by
      unfold determineKeepAlive
      rw [hconn]
    rw [hdet] at hh hk
    constructor
    · intro hnone
      rw [hh] at hnone
      simp only [] at hnone
      rw [hconn] at hnone
      exact absurd hnone (by simp)
    · intro v hv
      rw [hh] at hv
      simp only [] at hv
      rw [hconn] at hv
      cases hv
      rw [hk]

/-- Witness for C4 (amended): parsing
`"HTTP/1.1 200 OK\r\nConnection: close\r\n\r\n"` yields a response
whose keep-alive flag is false. -/
theorem response_keepalive_spec_witness :
    (HttpResponse.mk "HTTP/1.1".toList
      [("connection".toList, "close".toList)] [] 200 false).keepAlive
      = false := by
  have h := (response_keepalive_spec
    "HTTP/1.1 200 OK\r\nConnection: close\r\n\r\n".toList
    (HttpResponse.mk "HTTP/1.1".toList
      [("connection".toList, "close".toList)] [] 200 false)
    (by rfl)).2 "close".toList (by rfl)
  rw [h]
  rfl

/-! ## Client orchestrator (http_client.cpp) -/

/-- The catchable exception kinds thrown inside
`HttpClient::processRequest` (all derive `std::exception`):
`runtime_error` (socket connect, failed parse), `system_error`
(send/recv), `invalid_argument`/`out_of_range` (number parsing),
`bad_alloc` (string building). -/
inductive StdExc
| runtimeError
| systemError
| invalidArgument
| outOfRange
| badAlloc
deriving DecidableEq

/-- Environment of one `processRequest` call: the observable results
of the collaborator calls, each able to throw. -/
structure PREnv where
  isConnectedRes : Bool
  connectRes : Except StdExc Bool
  serializeRes : Except StdExc Unit
  sendRes : Except StdExc Bool
  receiveRes : Except StdExc (Option (List Char))
  parseRes : Except StdExc HttpResponse

/-- Result of `processRequest`: which exception (if any) escaped to
the caller, and whether `ConnectionManager::disconnect` was invoked. -/
structure PROut where
  escaped : Option StdExc
  disconnected : Bool

/-- The `try` block of `processRequest`: connect if not connected
(returning early on `false`), serialize, send, receive, parse, then
disconnect when the response is not keep-alive.  `.error` is a raised
exception; the `Bool` records a disconnect. -/
def processRequestTry (env : PREnv) : Except StdExc Bool :=
  match (if env.isConnectedRes then Except.ok true else env.connectRes :
      Except StdExc Bool) with
  | .error e => .error e
  | .ok false => .ok false
  | .ok true =>
    match env.serializeRes with
    | .error e => .error e
    | .ok () =>
      match env.sendRes with
      | .error e => .error e
      | .ok false => .ok false
      | .ok true =>
        match env.receiveRes with
        | .error e => .error e
        | .ok none => .ok false
        | .ok (some _) =>
          match env.parseRes with
          | .error e => .error e
          | .ok resp => if resp.keepAlive then .ok false else .ok true

/-- `HttpClient::processRequest`: the `try` block under
`catch (const std::exception&)`, which logs and returns. -/
def HttpClient.processRequest (env : PREnv) : PROut :=
  match processRequestTry env with
  | .error _ => ⟨none, false⟩
  | .ok disc => ⟨none, disc⟩

/-- C9: no exception ever escapes `processRequest` (every `StdExc`
raised by connect/serialize/send/receive/parse is caught, the call
just returns), and whenever a response parses with its keep-alive
flag false, the connection manager is proactively disconnected. -/
theorem processRequest_spec (env : PREnv) :
    (HttpClient.processRequest env).escaped = none ∧
    ((env.isConnectedRes = true ∨ env.connectRes = .ok true) →
      env.serializeRes = .ok () → env.sendRes = .ok true →
      ∀ s resp, env.receiveRes = .ok (some s) →
        env.parseRes = .ok resp → resp.keepAlive = false →
        (HttpClient.processRequest env).disconnected = true) ∧
    (∀ e, env.isConnectedRes = false → env.connectRes = .error e →
      HttpClient.processRequest env = ⟨none, false⟩) ∧
    (∀ e, (env.isConnectedRes = true ∨ env.connectRes = .ok true) →
      env.serializeRes = .ok () → env.sendRes = .ok true →
      ∀ s, env.receiveRes = .ok (some s) → env.parseRes = .error e →
        HttpClient.processRequest env = ⟨none, false⟩) := by
  refine ⟨?_, ?_, ?_, ?_⟩
  · unfold HttpClient.processRequest
    cases processRequestTry env <;> rfl
  · intro hconn hser hsend s resp hrecv hparse hka
    have hc : (if env.isConnectedRes then Except.ok true else env.connectRes :
        Except StdExc Bool) = .ok true := by
      rcases hconn with h | h
      · simp [h]
      · cases hic : env.isConnectedRes <;> simp [h]
    unfold HttpClient.processRequest processRequestTry
    rw [hc, hser, hsend, hrecv, hparse]
    simp [hka]
  · intro e hic hce
    unfold HttpClient.processRequest processRequestTry
    rw [hic]
    simp only [Bool.false_eq_true, if_false]
    rw [hce]
  · intro e hconn hser hsend s hrecv hparse
    have hc : (if env.isConnectedRes then Except.ok true else env.connectRes :
        Except StdExc Bool) = .ok true := by
      rcases hconn with h | h
      · simp [h]
      · cases hic : env.isConnectedRes <;> simp [h]
    unfold HttpClient.processRequest processRequestTry
    rw [hc, hser, hsend, hrecv, hparse]

/-- Witness for C9: a run whose response parses to a non-keep-alive
response disconnects; one whose connect raises returns quietly. -/
theorem processRequest_spec_witness :
    (HttpClient.processRequest
      { isConnectedRes := true, connectRes := .ok true,
        serializeRes := .ok (), sendRes := .ok true,
        receiveRes := .ok (some []),
        parseRes := .ok { HttpResponse.init with keepAlive := false }
      }).disconnected = true ∧
    HttpClient.processRequest
      { isConnectedRes := false, connectRes := .error .runtimeError,
        serializeRes := .ok (), sendRes := .ok true,
        receiveRes := .ok (some []),
        parseRes := .ok HttpResponse.init } = ⟨none, false⟩ :=
  ⟨(processRequest_spec _).2.1 (Or.inl rfl) rfl rfl []
      { HttpResponse.init with keepAlive := false } rfl rfl rfl,
   (processRequest_spec _).2.2.1 .runtimeError rfl rfl⟩
